import Mathlib

/-!
Verification of the first-order (intensity-based) statistics engine in
`digital_phantom_package/intensity_based_stat.py`.

The sample matrix `targetVoxelArray` is a 2-D float array whose entries may be
NaN (masked-out / padded voxels).  We embed one entry as `Option ℚ` (`none` is
NaN, `some x` a valid intensity), a row as `List (Option ℚ)` and the matrix as
`List Row`.  Every `nan*` numpy reduction becomes the corresponding reduction
over the valid entries of a row, returning `none` exactly where numpy returns
NaN (all-invalid row).  Square roots and the `** 1.5` power are embedded over
`ℝ`; everything else stays in `ℚ` and is executable.
-/

namespace IntensityStat

/-- One sample entry: `none` models numpy NaN (invalid / masked-out voxel). -/
abbrev Val := Option ℚ

/-- One row of the target voxel sample matrix (one evaluation point). -/
abbrev Row := List Val

/-- The valid (non-NaN) entries of a row, in order. -/
def validValues (r : Row) : List ℚ := r.filterMap id

/-- Number of valid entries of a row (`np.sum(~np.isnan(row))`). -/
def nvalid (r : Row) : ℕ := (validValues r).length

/-- `np.nansum` over one row: NaN entries are skipped (empty sum is 0). -/
def nansum (r : Row) : ℚ := (validValues r).sum

/-- `np.nanmean` over one row: mean of the valid entries, NaN if there are none. -/
def nanmean (r : Row) : Option ℚ :=
  if nvalid r = 0 then none else some (nansum r / nvalid r)

/-- The valid entries of a row in ascending order. -/
def sortedValid (r : Row) : List ℚ :=
  List.insertionSort (· ≤ ·) (validValues r)

/-- `np.nanmin`: least valid entry, NaN if there is none. -/
def nanmin (r : Row) : Option ℚ := (sortedValid r).head?

/-- `np.nanmax`: greatest valid entry, NaN if there is none. -/
def nanmax (r : Row) : Option ℚ := (sortedValid r).getLast?

/-- `np.nanpercentile` with linear interpolation: for the ascending valid
entries `s` of length `m`, the value at fractional index `(m-1)*p/100`. -/
def nanpercentile (r : Row) (p : ℚ) : Option ℚ :=
  let s := sortedValid r
  if s.length = 0 then none
  else
    let h : ℚ := ((s.length - 1 : ℕ) : ℚ) * p / 100
    let i : ℕ := (⌊h⌋).toNat
    let f : ℚ := h - ⌊h⌋
    let a := s.getD i 0
    let b := s.getD (i + 1) a
    some (a + f * (b - a))

/-- `np.nanmedian`: middle valid entry (mean of the two middle ones for an even
count), NaN if there is none. -/
def nanmedian (r : Row) : Option ℚ :=
  let s := sortedValid r
  if s.length = 0 then none
  else if s.length % 2 = 1 then some (s.getD (s.length / 2) 0)
  else some ((s.getD (s.length / 2 - 1) 0 + s.getD (s.length / 2) 0) / 2)

/-- `_moment(a, k)`: the k-th central moment of a row.  Moment 1 is the
constant 0 by definition; for other k it is the nan-mean of
`(x - nanmean row)^k` (NaN for an all-invalid row, since the row mean is
already NaN there). -/
def moment (r : Row) (k : ℕ) : Option ℚ :=
  if k = 1 then some 0
  else (nanmean r).bind fun mn => nanmean (r.map (Option.map fun x => (x - mn) ^ k))

/-- `np.nanstd` (population, ddof = 0): square root of the mean squared
deviation of the valid entries. -/
noncomputable def stdRow (r : Row) : Option ℝ :=
  (moment r 2).map fun m2 : ℚ => Real.sqrt (m2 : ℝ)

/-- `getVarianceIntensity` row kernel: `np.nanstd(row) ** 2`. -/
noncomputable def varianceRow (r : Row) : Option ℝ :=
  (stdRow r).map fun s => s ^ 2

/-- `getIntensitySkewness` row kernel: `m3 / m2 ** 1.5` after replacing a zero
`m2` by 1 (flat-region guard).  The source's second guard line
`m3[m2 == 0] = 0` runs after `m2` has been overwritten and is dead code, so it
is not modelled. -/
noncomputable def skewnessRow (r : Row) : Option ℝ :=
  match moment r 2, moment r 3 with
  | some m2, some m3 =>
      some ((m3 : ℝ) / (((if m2 = 0 then (1 : ℚ) else m2) : ℚ) : ℝ) ^ ((3 : ℝ) / 2))
  | _, _ => none

/-- `getIntensityKurtosis` row kernel: `m4 / m2 ** 2` with the same flat-region
guard on `m2` (and the same dead second guard line). -/
def kurtosisRow (r : Row) : Option ℚ :=
  match moment r 2, moment r 4 with
  | some m2, some m4 => some (m4 / (if m2 = 0 then (1 : ℚ) else m2) ^ 2)
  | _, _ => none

/-- `getIntensityMeanAbsoluteDeviation` row kernel:
`np.nanmean(|row - np.nanmean(row)|)`. -/
def madRow (r : Row) : Option ℚ :=
  (nanmean r).bind fun u => nanmean (r.map (Option.map fun x => |x - u|))

/-- numpy comparison `x < p` where `p` may be NaN: NaN comparisons are False. -/
def ltNaN (x : ℚ) : Option ℚ → Bool
  | some q => decide (x < q)
  | none => false

/-- numpy comparison `x > p` where `p` may be NaN: NaN comparisons are False. -/
def gtNaN (x : ℚ) : Option ℚ → Bool
  | some q => decide (q < x)
  | none => false

/-- The NaN-marking step of `getIntensityRobustMeanAbsoluteDeviation`: valid
entries strictly below the 10th or strictly above the 90th percentile of the
row are overwritten with NaN. -/
def robustFilterRow (r : Row) : Row :=
  let p10 := nanpercentile r 10
  let p90 := nanpercentile r 90
  r.map fun v => v.bind fun x => if ltNaN x p10 || gtNaN x p90 then none else some x

/-- `getIntensityRobustMeanAbsoluteDeviation` row kernel: mean absolute
deviation (about the recomputed mean) of the percentile-band-filtered row. -/
def robustMadRow (r : Row) : Option ℚ :=
  madRow (robustFilterRow r)

/-- `getIntensityMedianAbsoluteDeviation` row kernel:
`np.nanmedian(|row - np.nanmedian(row)|)`. -/
def medianAbsDevRow (r : Row) : Option ℚ :=
  (nanmedian r).bind fun md => nanmedian (r.map (Option.map fun x => |x - md|))

/-- `getIntensityCoefficientOfVariation` row kernel:
`np.nan_to_num(std / mean, nan=0, posinf=0, neginf=0)`.  The quotient is NaN or
infinite exactly when the row is all-invalid or its mean is 0; in both cases
`nan_to_num` forces the result to 0. -/
noncomputable def covRow (r : Row) : ℝ :=
  match nanmean r, stdRow r with
  | some mn, some sd => if mn = 0 then 0 else sd / (mn : ℝ)
  | _, _ => 0

/-- `getIntensityQuartileCoefficientOfDispersion` row kernel:
`np.nan_to_num((q75 - q25) / (q75 + q25), nan=0, posinf=0, neginf=0)`. -/
def qcdRow (r : Row) : ℚ :=
  match nanpercentile r 75, nanpercentile r 25 with
  | some q75, some q25 => if q75 + q25 = 0 then 0 else (q75 - q25) / (q75 + q25)
  | _, _ => 0

/-- `getIntensityInterquartileRange` row kernel: 75th minus 25th percentile. -/
def iqrRow (r : Row) : Option ℚ :=
  match nanpercentile r 75, nanpercentile r 25 with
  | some q75, some q25 => some (q75 - q25)
  | _, _ => none

/-- `getIntensityRange` row kernel: `np.nanmax(row) - np.nanmin(row)`. -/
def rangeRow (r : Row) : Option ℚ :=
  match nanmax r, nanmin r with
  | some mx, some mn => some (mx - mn)
  | _, _ => none

/-- `getIntensityEnergy` row kernel: `np.nansum((row + shift) ** 2)`.
NaN entries are skipped by `nansum`, so an all-invalid row sums to 0. -/
def energyRow (r : Row) (shift : ℚ) : ℚ :=
  nansum (r.map (Option.map fun x => (x + shift) ^ 2))

/-- The quantity under the square root in `getRootMeanSquareIntensity`:
`np.nansum((row + shift)**2) / Nvox`.  With `Nvox = 0` numpy produces `0/0 =
NaN`, modelled as `none`. -/
def rmsSqRow (r : Row) (shift : ℚ) : Option ℚ :=
  if nvalid r = 0 then none
  else some (nansum (r.map (Option.map fun x => (x + shift) ^ 2)) / nvalid r)

/-- Row kernel of `getRootMeanSquareIntensity` (when the size guard does not
fire): `sqrt(nansum((row + shift)**2) / Nvox)`. -/
noncomputable def rmsRow (r : Row) (shift : ℚ) : Option ℝ :=
  (rmsSqRow r shift).map fun q : ℚ => Real.sqrt (q : ℝ)

/-- `targetVoxelArray.size`: the total number of entries (valid or not). -/
def matrixSize (M : List Row) : ℕ := (M.map List.length).sum

/-- Total number of valid entries in the whole sample matrix. -/
def matrixValidCount (M : List Row) : ℕ := (M.map nvalid).sum

/-- `getMeanIntensity`: per-row `np.nanmean(targetVoxelArray, 1)`. -/
def getMeanIntensity (M : List Row) : List (Option ℚ) := M.map nanmean

/-- `getVarianceIntensity`: per-row `np.nanstd(targetVoxelArray, 1) ** 2`. -/
noncomputable def getVarianceIntensity (M : List Row) : List (Option ℝ) := M.map varianceRow

/-- `getIntensitySkewness`. -/
noncomputable def getIntensitySkewness (M : List Row) : List (Option ℝ) := M.map skewnessRow

/-- `getIntensityKurtosis`. -/
def getIntensityKurtosis (M : List Row) : List (Option ℚ) := M.map kurtosisRow

/-- `getMedianIntensity`: per-row `np.nanmedian`. -/
def getMedianIntensity (M : List Row) : List (Option ℚ) := M.map nanmedian

/-- `getMinimumIntensity`: per-row `np.nanmin`. -/
def getMinimumIntensity (M : List Row) : List (Option ℚ) := M.map nanmin

/-- `get10IntensityPercentile`: per-row `np.nanpercentile(.., 10)`. -/
def get10IntensityPercentile (M : List Row) : List (Option ℚ) := M.map (nanpercentile · 10)

/-- `get90IntensityPercentile`: per-row `np.nanpercentile(.., 90)`. -/
def get90IntensityPercentile (M : List Row) : List (Option ℚ) := M.map (nanpercentile · 90)

/-- `getMaximumIntensity`: per-row `np.nanmax`. -/
def getMaximumIntensity (M : List Row) : List (Option ℚ) := M.map nanmax

/-- `getIntensityInterquartileRange`. -/
def getIntensityInterquartileRange (M : List Row) : List (Option ℚ) := M.map iqrRow

/-- `getIntensityRange`. -/
def getIntensityRange (M : List Row) : List (Option ℚ) := M.map rangeRow

/-- `getIntensityMeanAbsoluteDeviation`. -/
def getIntensityMeanAbsoluteDeviation (M : List Row) : List (Option ℚ) := M.map madRow

/-- `getIntensityRobustMeanAbsoluteDeviation`. -/
def getIntensityRobustMeanAbsoluteDeviation (M : List Row) : List (Option ℚ) := M.map robustMadRow

/-- `getIntensityMedianAbsoluteDeviation`. -/
def getIntensityMedianAbsoluteDeviation (M : List Row) : List (Option ℚ) := M.map medianAbsDevRow

/-- `getIntensityCoefficientOfVariation`. -/
noncomputable def getIntensityCoefficientOfVariation (M : List Row) : List ℝ := M.map covRow

/-- `getIntensityQuartileCoefficientOfDispersion`. -/
def getIntensityQuartileCoefficientOfDispersion (M : List Row) : List ℚ := M.map qcdRow

/-- `getIntensityEnergy`: per-row `np.nansum((row + voxelArrayShift) ** 2)`. -/
def getIntensityEnergy (M : List Row) (voxelArrayShift : ℚ) : List ℚ :=
  M.map (energyRow · voxelArrayShift)

/-- `getRootMeanSquareIntensity`: if `targetVoxelArray.size == 0` the scalar 0
is returned (`Sum.inl 0`); otherwise one RMS value per row (`Sum.inr`). -/
noncomputable def getRootMeanSquareIntensity (M : List Row) (voxelArrayShift : ℚ) :
    ℚ ⊕ List (Option ℝ) :=
  if matrixSize M = 0 then Sum.inl 0
  else Sum.inr (M.map (rmsRow · voxelArrayShift))

/-- `getStandardDeviationIntensity`: per-row `np.nanstd`. -/
noncomputable def getStandardDeviationIntensity (M : List Row) : List (Option ℝ) := M.map stdRow

/-! ### `_initCalculation`, aggregate (non-voxel) branch

The 3-D volumes enter the aggregate branch only through the boolean-mask
gather `imageArray[maskArray]`, which flattens to the list of values at the
masked positions (in scan order); we embed the flattened volumes directly as
lists. -/

/-- `array[mask]`: the values at the positions where the mask is true. -/
def maskedValues (img : List ℚ) (mask : List Bool) : List ℚ :=
  (img.zip mask).filterMap fun p => if p.2 then some p.1 else none

/-- Aggregate-mode `targetVoxelArray`: all masked voxels as one single row
(`imageArray[maskArray].reshape((1, -1))`). -/
def aggregateSample (img : List ℚ) (mask : List Bool) : List Row :=
  [(maskedValues img mask).map some]

/-- The distinct values of `xs` in ascending order (`np.unique` without
counts). -/
def sortedDistinct (xs : List ℚ) : List ℚ :=
  List.insertionSort (· ≤ ·) xs.dedup

/-- `np.unique(xs, return_counts=True)[1]`: the occurrence count of each
distinct value of `xs`, in ascending order of value.  Values that do not occur
in `xs` get no entry. -/
def uniqueCounts (xs : List ℚ) : List ℕ :=
  (sortedDistinct xs).map fun v => xs.count v

/-- Aggregate-mode raw gray-level occupancy: the unique-value counts of the
discretized masked voxels, as one row. -/
def aggregateOccupancy (disc : List ℚ) (mask : List Bool) : List (List ℕ) :=
  [uniqueCounts (maskedValues disc mask)]

/-- `sumBins` after the zero-total guard `sumBins[sumBins == 0] = 1`. -/
def sumBinsAdjusted (row : List ℚ) : ℚ :=
  if row.sum = 0 then 1 else row.sum

/-- The normalization `p_i = p_i / sumBins` (lines 88-91 of the source),
applied to every row of the raw occupancy matrix. -/
def normalizePi (p : List (List ℚ)) : List (List ℚ) :=
  p.map fun row => row.map fun x => x / sumBinsAdjusted row

/-- `coefficients['p_i']` as computed by `_initCalculation` from the raw
occupancy counts (which are natural numbers in both modes). -/
def initPi (rawCounts : List (List ℕ)) : List (List ℚ) :=
  normalizePi (rawCounts.map fun row => row.map fun n : ℕ => (n : ℚ))

/-! ### Spec-worded definitions used for refinement comparisons -/

/-- Modelled from the spec's words for Robust Mean Absolute Deviation: the mean
absolute deviation over only the valid entries inside the closed
[10th, 90th]-percentile band, measured against the mean recomputed over that
retained subset. -/
def robustMadSpecRow (r : Row) : Option ℚ :=
  match nanpercentile r 10, nanpercentile r 90 with
  | some p10, some p90 =>
      let kept := (validValues r).filter fun x => decide (p10 ≤ x) && decide (x ≤ p90)
      if kept.length = 0 then none
      else some ((kept.map fun x => |x - kept.sum / kept.length|).sum / kept.length)
  | _, _ => none

/-- Modelled from the spec's words for the aggregate gray-level occupancy (C6):
one row holding, for each discretization level of the gray-level value set, the
count of masked voxels discretized to that level (zero-count levels included). -/
def occupancyPerLevelSpec (grayLevels disc : List ℚ) (mask : List Bool) : List (List ℕ) :=
  [grayLevels.map fun gl => (maskedValues disc mask).count gl]

/-! ### Local (voxel-based) mode sample gathering (C8) -/

/-- A voxel coordinate of the padded 3-D volume. -/
abbrev Coord := ℤ × ℤ × ℤ

/-- Local-mode sample row for one evaluation voxel `v` (already shifted by the
padding radius): the padded-image values at `v + o` for each kernel offset `o`
(line 82 of the source, one row of `imageArray[kernelCoords]`). -/
def localRowAt (paddedImg : Coord → Val) (kernelOffsets : List Coord) (v : Coord) : Row :=
  kernelOffsets.map fun o => paddedImg (v + o)

/-- Aggregate-mode sample row over a region given by the list of its masked
coordinates: the (never-NaN) image values there. -/
def aggregateRegionRow (img : Coord → ℚ) (maskCoords : List Coord) : Row :=
  maskCoords.map fun c => some (img c)

/-! ### Basic lemmas about the row primitives -/

theorem validValues_map_map (r : Row) (f : ℚ → ℚ) :
    validValues (r.map (Option.map f)) = (validValues r).map f := by
  simp [validValues, List.filterMap_map, List.map_filterMap]

theorem validValues_map_bind (r : Row) (g : ℚ → Option ℚ) :
    validValues (r.map fun v => v.bind g) = (validValues r).filterMap g := by
  simp [validValues, List.filterMap_map, List.filterMap_filterMap]

theorem validValues_map_some (xs : List ℚ) :
    validValues (xs.map some) = xs := by
  simp [validValues, List.filterMap_map]

theorem validValues_eq_nil {r : Row} (h : nvalid r = 0) : validValues r = [] :=
  List.length_eq_zero.mp h

@[simp] theorem validValues_nil : validValues [] = [] := rfl

@[simp] theorem validValues_cons_none (r : Row) :
    validValues (none :: r) = validValues r := by
  simp [validValues]

@[simp] theorem validValues_cons_some (x : ℚ) (r : Row) :
    validValues (some x :: r) = x :: validValues r := by
  simp [validValues]

theorem energyRow_eq (r : Row) (shift : ℚ) :
    energyRow r shift = ((validValues r).map fun x => (x + shift) ^ 2).sum := by
  rw [energyRow, nansum, validValues_map_map]

theorem sum_of_forall_eq {l : List ℚ} {c : ℚ} (h : ∀ x ∈ l, x = c) :
    l.sum = l.length * c := by
  induction l with
  | nil => simp
  | cons a t ih =>
      have ha : a = c := h a (by simp)
      have ht : t.sum = t.length * c := ih fun x hx => h x (by simp [hx])
      simp [ha, ht]
      ring

theorem list_sum_map_div (l : List ℚ) (c : ℚ) :
    (l.map fun x => x / c).sum = l.sum / c := by
  induction l with
  | nil => simp
  | cons a t ih => simp [ih, add_div]

theorem sortedValid_perm (r : Row) : (sortedValid r).Perm (validValues r) :=
  List.perm_insertionSort _ _

theorem length_sortedValid (r : Row) : (sortedValid r).length = nvalid r :=
  (sortedValid_perm r).length_eq

theorem mem_sortedValid {r : Row} {x : ℚ} : x ∈ sortedValid r ↔ x ∈ validValues r :=
  (sortedValid_perm r).mem_iff

theorem getD_of_forall_eq {l : List ℚ} {c : ℚ} (hall : ∀ x ∈ l, x = c) {i : ℕ}
    (hi : i < l.length) (d : ℚ) : l.getD i d = c := by
  rw [List.getD_eq_getElem l d hi]
  exact hall _ (List.getElem_mem hi)

/-! ### Empty-row behaviour of the reducers -/

theorem nanmean_of_empty {r : Row} (h : nvalid r = 0) : nanmean r = none := by
  simp [nanmean, h]

theorem sortedValid_of_empty {r : Row} (h : nvalid r = 0) : sortedValid r = [] := by
  simp [sortedValid, validValues_eq_nil h, List.insertionSort]

theorem nanmedian_of_empty {r : Row} (h : nvalid r = 0) : nanmedian r = none := by
  simp [nanmedian, sortedValid_of_empty h]

theorem nanmin_of_empty {r : Row} (h : nvalid r = 0) : nanmin r = none := by
  simp [nanmin, sortedValid_of_empty h]

theorem nanmax_of_empty {r : Row} (h : nvalid r = 0) : nanmax r = none := by
  simp [nanmax, sortedValid_of_empty h]

theorem nanpercentile_of_empty {r : Row} (h : nvalid r = 0) (p : ℚ) :
    nanpercentile r p = none := by
  simp [nanpercentile, sortedValid_of_empty h]

/-! ### Constant (flat) rows -/

theorem nanmean_of_const {r : Row} {c : ℚ} (h0 : nvalid r ≠ 0)
    (hall : ∀ x ∈ validValues r, x = c) : nanmean r = some c := by
  have h0' : (validValues r).length ≠ 0 := h0
  have hlen : (((validValues r).length : ℚ)) ≠ 0 := Nat.cast_ne_zero.mpr h0'
  simp only [nanmean, nansum, sum_of_forall_eq hall, nvalid]
  rw [if_neg h0', mul_comm, mul_div_assoc, div_self hlen, mul_one]

theorem nanpercentile_of_const {r : Row} {c : ℚ} (h0 : nvalid r ≠ 0)
    (hall : ∀ x ∈ validValues r, x = c) {p : ℚ} (hp0 : 0 ≤ p) (hp1 : p ≤ 100) :
    nanpercentile r p = some c := by
  have hs : ∀ x ∈ sortedValid r, x = c := fun x hx => hall x (mem_sortedValid.mp hx)
  have hm : (sortedValid r).length ≠ 0 := by rw [length_sortedValid]; exact h0
  set s := sortedValid r with hsdef
  set m := s.length with hmdef
  set h : ℚ := ((m - 1 : ℕ) : ℚ) * p / 100 with hhdef
  have hh0 : 0 ≤ h := by positivity
  have hhle : h ≤ ((m - 1 : ℕ) : ℚ) := by
    rw [hhdef, div_le_iff₀ (by norm_num : (0:ℚ) < 100)]
    have : ((m - 1 : ℕ) : ℚ) * p ≤ ((m - 1 : ℕ) : ℚ) * 100 :=
      mul_le_mul_of_nonneg_left hp1 (by positivity)
    linarith
  have hfl0 : 0 ≤ ⌊h⌋ := Int.floor_nonneg.mpr hh0
  have hfl1 : ⌊h⌋ ≤ ((m - 1 : ℕ) : ℤ) := by
    have := Int.floor_mono hhle
    rwa [Int.floor_natCast] at this
  have hi : (⌊h⌋).toNat < m := by omega
  have ha : s.getD (⌊h⌋).toNat 0 = c := getD_of_forall_eq hs hi 0
  have hb : s.getD ((⌊h⌋).toNat + 1) c = c := by
    by_cases hib : (⌊h⌋).toNat + 1 < m
    · exact getD_of_forall_eq hs hib _
    · exact List.getD_eq_default _ _ (by omega)
  simp only [nanpercentile, ← hsdef, ← hmdef, if_neg hm, ← hhdef, ha, hb]
  simp

theorem nanmedian_of_const {r : Row} {c : ℚ} (h0 : nvalid r ≠ 0)
    (hall : ∀ x ∈ validValues r, x = c) : nanmedian r = some c := by
  have hs : ∀ x ∈ sortedValid r, x = c := fun x hx => hall x (mem_sortedValid.mp hx)
  have hm : (sortedValid r).length ≠ 0 := by rw [length_sortedValid]; exact h0
  set s := sortedValid r with hsdef
  set m := s.length with hmdef
  have h1 : m / 2 < m := Nat.div_lt_self (by omega) (by norm_num)
  have h2 : m / 2 - 1 < m := by omega
  simp only [nanmedian, ← hsdef, ← hmdef, if_neg hm,
    getD_of_forall_eq hs h1, getD_of_forall_eq hs h2]
  by_cases hodd : m % 2 = 1 <;> simp [hodd]

theorem nanmin_of_const {r : Row} {c : ℚ} (h0 : nvalid r ≠ 0)
    (hall : ∀ x ∈ validValues r, x = c) : nanmin r = some c := by
  have hs : ∀ x ∈ sortedValid r, x = c := fun x hx => hall x (mem_sortedValid.mp hx)
  have hne : sortedValid r ≠ [] := by
    intro hnil
    exact h0 (by rw [← length_sortedValid, hnil]; rfl)
  rw [nanmin, List.head?_eq_head hne]
  exact congrArg some (hs _ (List.head_mem hne))

theorem nanmax_of_const {r : Row} {c : ℚ} (h0 : nvalid r ≠ 0)
    (hall : ∀ x ∈ validValues r, x = c) : nanmax r = some c := by
  have hs : ∀ x ∈ sortedValid r, x = c := fun x hx => hall x (mem_sortedValid.mp hx)
  have hne : sortedValid r ≠ [] := by
    intro hnil
    exact h0 (by rw [← length_sortedValid, hnil]; rfl)
  rw [nanmax, List.getLast?_eq_getLast _ hne]
  exact congrArg some (hs _ (List.getLast_mem hne))

theorem moment_of_const {r : Row} {c : ℚ} (h0 : nvalid r ≠ 0)
    (hall : ∀ x ∈ validValues r, x = c) {k : ℕ} (hk : k ≠ 0) :
    moment r k = some 0 := by
  by_cases h1 : k = 1
  · simp [moment, h1]
  · have hmn : nanmean r = some c := nanmean_of_const h0 hall
    have hvv : validValues (r.map (Option.map fun x => (x - c) ^ k)) =
        (validValues r).map fun x => (x - c) ^ k := validValues_map_map r _
    have hall2 : ∀ y ∈ validValues (r.map (Option.map fun x => (x - c) ^ k)), y = 0 := by
      intro y hy
      rw [hvv] at hy
      obtain ⟨x, hx, rfl⟩ := List.mem_map.mp hy
      rw [hall x hx, sub_self, zero_pow hk]
    have h02 : nvalid (r.map (Option.map fun x => (x - c) ^ k)) ≠ 0 := by
      unfold nvalid
      rw [hvv, List.length_map]
      exact h0
    simp only [moment, if_neg h1, hmn, Option.bind_some]
    exact nanmean_of_const h02 hall2

/-! ### Claim C1: flat rows -/

/-- C1: for every sample row whose valid entries all equal a single value `c`,
with more than one valid entry, Skewness and Kurtosis are 0 (flat-region
guard), Mean and Median are `c`, Range and Interquartile Range are 0, and the
Coefficient of Variation and Quartile Coefficient of Dispersion are 0 (the
non-finite guards fire instead of producing 0/0). -/
theorem claim1_flat_row_statistics (r : Row) (c : ℚ)
    (hn : 1 < nvalid r) (hc : ∀ x ∈ validValues r, x = c) :
    getIntensitySkewness [r] = [some (0 : ℝ)] ∧
    getIntensityKurtosis [r] = [some (0 : ℚ)] ∧
    getMeanIntensity [r] = [some c] ∧
    getMedianIntensity [r] = [some c] ∧
    getIntensityRange [r] = [some (0 : ℚ)] ∧
    getIntensityInterquartileRange [r] = [some (0 : ℚ)] ∧
    getIntensityCoefficientOfVariation [r] = [(0 : ℝ)] ∧
    getIntensityQuartileCoefficientOfDispersion [r] = [(0 : ℚ)] := by
  have h0 : nvalid r ≠ 0 := by omega
  have hm2 : moment r 2 = some 0 := moment_of_const h0 hc (by norm_num)
  have hm3 : moment r 3 = some 0 := moment_of_const h0 hc (by norm_num)
  have hm4 : moment r 4 = some 0 := moment_of_const h0 hc (by norm_num)
  have hmean : nanmean r = some c := nanmean_of_const h0 hc
  have h75 : nanpercentile r 75 = some c :=
    nanpercentile_of_const h0 hc (by norm_num) (by norm_num)
  have h25 : nanpercentile r 25 = some c :=
    nanpercentile_of_const h0 hc (by norm_num) (by norm_num)
  have hsd : stdRow r = some 0 := by
    simp [stdRow, hm2]
  refine ⟨?_, ?_, ?_, ?_, ?_, ?_, ?_, ?_⟩
  · simp [getIntensitySkewness, skewnessRow, hm2, hm3]
  · simp [getIntensityKurtosis, kurtosisRow, hm2, hm4]
  · simp [getMeanIntensity, hmean]
  · simp [getMedianIntensity, nanmedian_of_const h0 hc]
  · simp [getIntensityRange, rangeRow, nanmin_of_const h0 hc, nanmax_of_const h0 hc]
  · simp [getIntensityInterquartileRange, iqrRow, h75, h25]
  · simp only [getIntensityCoefficientOfVariation, List.map_cons, List.map_nil, covRow,
      hmean, hsd]
    by_cases hc0 : c = 0 <;> simp [hc0]
  · simp only [getIntensityQuartileCoefficientOfDispersion, List.map_cons, List.map_nil,
      qcdRow, h75, h25]
    by_cases hcc : c + c = 0 <;> simp [hcc]

/-- C1 witness: the spec's concrete flat scenario, five valid entries all 7. -/
theorem claim1_flat_row_statistics_witness :
    (1 < nvalid [some (7:ℚ), some 7, some 7, some 7, some 7]) ∧
    (getIntensitySkewness [[some (7:ℚ), some 7, some 7, some 7, some 7]] = [some (0 : ℝ)] ∧
     getIntensityKurtosis [[some (7:ℚ), some 7, some 7, some 7, some 7]] = [some (0 : ℚ)] ∧
     getMeanIntensity [[some (7:ℚ), some 7, some 7, some 7, some 7]] = [some 7] ∧
     getMedianIntensity [[some (7:ℚ), some 7, some 7, some 7, some 7]] = [some 7] ∧
     getIntensityRange [[some (7:ℚ), some 7, some 7, some 7, some 7]] = [some (0 : ℚ)] ∧
     getIntensityInterquartileRange [[some (7:ℚ), some 7, some 7, some 7, some 7]] = [some (0 : ℚ)] ∧
     getIntensityCoefficientOfVariation [[some (7:ℚ), some 7, some 7, some 7, some 7]] = [(0 : ℝ)] ∧
     getIntensityQuartileCoefficientOfDispersion [[some (7:ℚ), some 7, some 7, some 7, some 7]] = [(0 : ℚ)]) :=
  ⟨by norm_num [nvalid],
   claim1_flat_row_statistics _ 7 (by norm_num [nvalid])
     (by norm_num)⟩

/-! ### Claim C2: the concrete row [1,2,3,4,5,100] -/

/-- The spec's concrete single-row sample (6 valid entries, no invalid ones). -/
def sampleRow6 : Row := [some 1, some 2, some 3, some 4, some 5, some 100]

theorem mean_sampleRow6 : nanmean sampleRow6 = some (115/6) := by
  norm_num [nanmean, nansum, nvalid, sampleRow6]

theorem sorted_sampleRow6 : sortedValid sampleRow6 = [1, 2, 3, 4, 5, 100] := by
  norm_num [sortedValid, sampleRow6, List.insertionSort, List.orderedInsert]

theorem moment2_sampleRow6 : moment sampleRow6 2 = some (47105/36) := by
  rw [moment, if_neg (by norm_num), mean_sampleRow6]
  norm_num [nanmean, nansum, nvalid, sampleRow6]

theorem variance_sampleRow6 : varianceRow sampleRow6 = some ((47105:ℝ)/36) := by
  simp only [varianceRow, stdRow, moment2_sampleRow6, Option.map_some']
  congr 1
  rw [Real.sq_sqrt (by positivity)]
  push_cast
  norm_num

/-- C2 (amended): the engine's results on the single-row sample
[1,2,3,4,5,100] with shift 0.  Variance is the square of the population
standard deviation (denominator 6, the number of valid entries), whose exact
value is 47105/36 = 1308.47..., and RMS is sqrt(10055/6) = 40.93....  -/
theorem claim2_amended_sample_row :
    getMeanIntensity [sampleRow6] = [some (115/6)] ∧
    getMedianIntensity [sampleRow6] = [some (7/2)] ∧
    getMinimumIntensity [sampleRow6] = [some 1] ∧
    getMaximumIntensity [sampleRow6] = [some 100] ∧
    getIntensityRange [sampleRow6] = [some 99] ∧
    getVarianceIntensity [sampleRow6] = [some ((47105:ℝ)/36)] ∧
    getStandardDeviationIntensity [sampleRow6] = [some (Real.sqrt ((47105:ℝ)/36))] ∧
    getIntensityEnergy [sampleRow6] 0 = [10055] ∧
    getRootMeanSquareIntensity [sampleRow6] 0 = Sum.inr [some (Real.sqrt ((10055:ℝ)/6))] := by
  refine ⟨?_, ?_, ?_, ?_, ?_, ?_, ?_, ?_, ?_⟩
  · simp [getMeanIntensity, mean_sampleRow6]
  · simp only [getMedianIntensity, List.map_cons, List.map_nil, nanmedian, sorted_sampleRow6]
    norm_num
  · simp only [getMinimumIntensity, List.map_cons, List.map_nil, nanmin, sorted_sampleRow6]
    rfl
  · simp only [getMaximumIntensity, List.map_cons, List.map_nil, nanmax, sorted_sampleRow6]
    rfl
  · simp only [getIntensityRange, List.map_cons, List.map_nil, rangeRow, nanmin, nanmax,
      sorted_sampleRow6]
    norm_num [List.getLast?]
  · simp [getVarianceIntensity, variance_sampleRow6]
  · simp only [getStandardDeviationIntensity, List.map_cons, List.map_nil, stdRow,
      moment2_sampleRow6, Option.map_some']
    norm_num
  · norm_num [getIntensityEnergy, energyRow_eq, sampleRow6]
  · have hsq : rmsSqRow sampleRow6 0 = some (10055/6) := by
      norm_num [rmsSqRow, nvalid, nansum, validValues_map_map, sampleRow6]
    have hsz : ¬ matrixSize [sampleRow6] = 0 := by norm_num [matrixSize, sampleRow6]
    simp only [getRootMeanSquareIntensity, if_neg hsz, List.map_cons, List.map_nil, rmsRow,
      hsq, Option.map_some']
    norm_num

/-- C2 counterexample: the claim states Variance ≈ 1344.97 for this row, but
the code computes 47105/36 = 1308.472..., which differs from 1344.97 by more
than 36. -/
theorem claim2_variance_counterexample :
    getVarianceIntensity [sampleRow6] = [some ((47105:ℝ)/36)] ∧
    36 < |((47105:ℝ)/36) - 1344.97| := by
  constructor
  · simp [getVarianceIntensity, variance_sampleRow6]
  · have hneg : ((47105:ℝ)/36) - 1344.97 < 0 := by norm_num
    rw [abs_of_neg hneg]
    norm_num

/-! ### Claim C4: empty rows and the RMS size guard -/

/-- C4 (amended): a row with zero valid entries yields the NaN sentinel (not
an error) for Mean, Median, Minimum and Maximum; Root Mean Square returns the
scalar 0 exactly when the sample matrix has zero entries (size 0). -/
theorem claim4_amended_empty (r : Row) (hr : nvalid r = 0)
    (M : List Row) (hM : matrixSize M = 0) (shift : ℚ) :
    getMeanIntensity [r] = [none] ∧
    getMedianIntensity [r] = [none] ∧
    getMinimumIntensity [r] = [none] ∧
    getMaximumIntensity [r] = [none] ∧
    getRootMeanSquareIntensity M shift = Sum.inl 0 := by
  refine ⟨?_, ?_, ?_, ?_, ?_⟩
  · simp [getMeanIntensity, nanmean_of_empty hr]
  · simp [getMedianIntensity, nanmedian_of_empty hr]
  · simp [getMinimumIntensity, nanmin_of_empty hr]
  · simp [getMaximumIntensity, nanmax_of_empty hr]
  · simp [getRootMeanSquareIntensity, hM]

/-- C4 witness: the all-NaN row `[none]` and the size-0 matrix `[]`. -/
theorem claim4_amended_empty_witness :
    (nvalid [(none : Val)] = 0 ∧ matrixSize ([] : List Row) = 0) ∧
    (getMeanIntensity [[(none : Val)]] = [none] ∧
     getMedianIntensity [[(none : Val)]] = [none] ∧
     getMinimumIntensity [[(none : Val)]] = [none] ∧
     getMaximumIntensity [[(none : Val)]] = [none] ∧
     getRootMeanSquareIntensity ([] : List Row) 3 = Sum.inl 0) :=
  ⟨⟨by norm_num [nvalid], by norm_num [matrixSize]⟩,
   claim4_amended_empty _ (by norm_num [nvalid]) _ (by norm_num [matrixSize]) 3⟩

/-- C4 counterexample: the matrix `[[none]]` has no valid entries anywhere,
yet its size is 1, so the RMS guard does not fire: the result is the NaN row
`Sum.inr [none]`, not the scalar 0 the claim asserts. -/
theorem claim4_rms_counterexample :
    matrixValidCount [[(none : Val)]] = 0 ∧
    getRootMeanSquareIntensity [[(none : Val)]] 0 = Sum.inr [none] ∧
    getRootMeanSquareIntensity [[(none : Val)]] 0 ≠ Sum.inl 0 := by
  refine ⟨by norm_num [matrixValidCount, nvalid], ?_, ?_⟩
  · have hsz : ¬ matrixSize [[(none : Val)]] = 0 := by norm_num [matrixSize]
    simp [getRootMeanSquareIntensity, hsz, rmsRow, rmsSqRow, nvalid]
  · have hsz : ¬ matrixSize [[(none : Val)]] = 0 := by norm_num [matrixSize]
    simp [getRootMeanSquareIntensity, hsz]

/-! ### Claim C10: Energy of an empty row -/

/-- C10: for every sample row with zero valid entries, Energy returns exactly
0 (the `nansum` of an all-NaN row), for any shift constant, without raising. -/
theorem claim10_energy_empty_row (r : Row) (shift : ℚ) (hr : nvalid r = 0) :
    getIntensityEnergy [r] shift = [0] := by
  have h : validValues (r.map (Option.map fun x => (x + shift) ^ 2)) = [] := by
    rw [validValues_map_map, validValues_eq_nil hr]
    rfl
  simp [getIntensityEnergy, energyRow, nansum, h]

/-- C10 witness: a two-entry all-NaN row with shift 5. -/
theorem claim10_energy_empty_row_witness :
    nvalid [(none : Val), none] = 0 ∧
    getIntensityEnergy [[(none : Val), none]] 5 = [0] :=
  ⟨by norm_num [nvalid],
   claim10_energy_empty_row _ 5 (by norm_num [nvalid])⟩

/-! ### Claim C3: robust MAD refines its specification -/

theorem filterMap_if_eq_filter (p : ℚ → Bool) (l : List ℚ) :
    (l.filterMap fun x => if p x then some x else none) = l.filter p := by
  induction l with
  | nil => rfl
  | cons a t ih =>
      by_cases h : p a <;> simp [List.filterMap_cons, List.filter_cons, h, ih]

theorem madRow_of_empty {m : Row} (h : nvalid m = 0) : madRow m = none := by
  simp [madRow, nanmean_of_empty h]

theorem madRow_eq {m : Row} (h : ¬ nvalid m = 0) :
    madRow m = some (((validValues m).map fun x =>
      |x - (validValues m).sum / (validValues m).length|).sum /
        (validValues m).length) := by
  have hmn : nanmean m = some ((validValues m).sum / (validValues m).length) := by
    rw [nanmean, if_neg h]
    rfl
  rw [madRow, hmn, Option.some_bind]
  have hn2 : ¬ nvalid (m.map (Option.map fun x =>
      |x - (validValues m).sum / (validValues m).length|)) = 0 := by
    unfold nvalid
    rw [validValues_map_map, List.length_map]
    exact h
  rw [nanmean, if_neg hn2, nansum]
  unfold nvalid
  rw [validValues_map_map, List.length_map]

theorem madRow_of_const {m : Row} {c : ℚ} (h0 : nvalid m ≠ 0)
    (hall : ∀ x ∈ validValues m, x = c) : madRow m = some 0 := by
  rw [madRow, nanmean_of_const h0 hall, Option.some_bind]
  have h02 : nvalid (m.map (Option.map fun x => |x - c|)) ≠ 0 := by
    unfold nvalid
    rw [validValues_map_map, List.length_map]
    exact h0
  apply nanmean_of_const h02
  intro y hy
  rw [validValues_map_map] at hy
  obtain ⟨x, hx, rfl⟩ := List.mem_map.mp hy
  rw [hall x hx, sub_self, abs_zero]

theorem nanpercentile_isSome {r : Row} (h : nvalid r ≠ 0) (p : ℚ) :
    ∃ v, nanpercentile r p = some v := by
  have hm : ¬ (sortedValid r).length = 0 := by rw [length_sortedValid]; exact h
  simp only [nanpercentile, if_neg hm]
  exact ⟨_, rfl⟩

theorem validValues_robustFilterRow (r : Row) {p10 p90 : ℚ}
    (h10 : nanpercentile r 10 = some p10) (h90 : nanpercentile r 90 = some p90) :
    validValues (robustFilterRow r) =
      (validValues r).filter fun x => decide (p10 ≤ x) && decide (x ≤ p90) := by
  simp only [robustFilterRow, h10, h90]
  rw [validValues_map_bind]
  rw [← filterMap_if_eq_filter]
  apply List.filterMap_congr
  intro x _
  by_cases h1 : x < p10
  · simp [ltNaN, h1, not_le.mpr h1]
  · by_cases h2 : p90 < x
    · simp [ltNaN, gtNaN, h1, h2, not_le.mpr h2]
    · simp [ltNaN, gtNaN, h1, h2, not_lt.mp h1, not_lt.mp h2]

/-- C3: Robust Mean Absolute Deviation equals the spec-described computation:
the mean absolute deviation over only the valid entries inside the closed
[10th, 90th]-percentile band of the row, measured against the mean recomputed
over the retained subset (not the full-row mean). -/
theorem claim3_robust_mad_refines_spec (r : Row) :
    getIntensityRobustMeanAbsoluteDeviation [r] = [robustMadSpecRow r] := by
  suffices h : robustMadRow r = robustMadSpecRow r by
    simp [getIntensityRobustMeanAbsoluteDeviation, h]
  by_cases h0 : nvalid r = 0
  · have h10 := nanpercentile_of_empty h0 10
    have h90 := nanpercentile_of_empty h0 90
    have hflt : nvalid (robustFilterRow r) = 0 := by
      unfold nvalid robustFilterRow
      rw [validValues_map_bind, validValues_eq_nil h0]
      rfl
    rw [robustMadRow, madRow_of_empty hflt]
    simp [robustMadSpecRow, h10, h90]
  · obtain ⟨p10, h10⟩ := nanpercentile_isSome h0 10
    obtain ⟨p90, h90⟩ := nanpercentile_isSome h0 90
    have hvv := validValues_robustFilterRow r h10 h90
    rw [robustMadRow]
    simp only [robustMadSpecRow, h10, h90]
    by_cases hke : ((validValues r).filter fun x =>
        decide (p10 ≤ x) && decide (x ≤ p90)).length = 0
    · have hflt : nvalid (robustFilterRow r) = 0 := by
        unfold nvalid
        rw [hvv]
        exact hke
      rw [madRow_of_empty hflt, if_pos hke]
    · have hflt : ¬ nvalid (robustFilterRow r) = 0 := by
        unfold nvalid
        rw [hvv]
        exact hke
      rw [madRow_eq hflt, hvv, if_neg hke]

/-! ### Claim C5: occupancy normalization -/

/-- C5: every row of the normalized occupancy distribution `p_i` either sums
to exactly 1 or, when the raw counts for that row summed to 0, is all-zero;
and the adjusted divisor is never 0. -/
theorem claim5_occupancy_normalized (rawCounts : List (List ℕ)) (row : List ℚ)
    (hrow : row ∈ initPi rawCounts) :
    (row.sum = 1 ∨ ∀ x ∈ row, x = 0) ∧
    ∀ raw ∈ rawCounts, sumBinsAdjusted (raw.map fun n : ℕ => (n : ℚ)) ≠ 0 := by
  constructor
  · simp only [initPi, normalizePi, List.mem_map] at hrow
    obtain ⟨r', ⟨raw, hraw, rfl⟩, rfl⟩ := hrow
    by_cases hs : ((raw.map fun n : ℕ => (n : ℚ)).sum) = 0
    · right
      have hsum0 : raw.sum = 0 := by
        have h : ((raw.sum : ℕ) : ℚ) = 0 := by rw [Nat.cast_list_sum]; exact hs
        exact_mod_cast h
      have hraw0 : ∀ n ∈ raw, n = 0 := List.sum_eq_zero_iff.mp hsum0
      intro x hx
      simp only [List.mem_map] at hx
      obtain ⟨y, ⟨n, hn, rfl⟩, rfl⟩ := hx
      rw [hraw0 n hn]
      simp
    · left
      rw [list_sum_map_div, sumBinsAdjusted, if_neg hs, div_self hs]
  · intro raw _
    rw [sumBinsAdjusted]
    by_cases hs : ((raw.map fun n : ℕ => (n : ℚ)).sum) = 0 <;> simp [hs]

/-- C5 witness: raw counts [[2,0],[0,0]]: the first normalized row sums to 1,
the second (zero-total) row is all-zero. -/
theorem claim5_occupancy_normalized_witness :
    (([(1 : ℚ), 0].sum = 1 ∨ ∀ x ∈ [(1 : ℚ), 0], x = 0) ∧
     ∀ raw ∈ [[2, 0], [(0 : ℕ), 0]], sumBinsAdjusted (raw.map fun n : ℕ => (n : ℚ)) ≠ 0) :=
  claim5_occupancy_normalized [[2, 0], [0, 0]] [1, 0]
    (by norm_num [initPi, normalizePi, sumBinsAdjusted])

/-! ### Claim C6: aggregate-mode sample and occupancy -/

/-- C6 (amended): in aggregate mode the sample is the flattening of the masked
voxels into a single row, and the occupancy row carries one strictly positive
count per distinct occurring discretization level (ascending); levels with
zero occurrences get no entry. -/
theorem claim6_amended_aggregate (img disc : List ℚ) (mask : List Bool) :
    aggregateSample img mask = [(maskedValues img mask).map some] ∧
    validValues ((aggregateSample img mask).headD []) = maskedValues img mask ∧
    (∀ n ∈ (aggregateOccupancy disc mask).headD [], 0 < n) ∧
    (∀ v ∈ maskedValues disc mask,
      (maskedValues disc mask).count v ∈ (aggregateOccupancy disc mask).headD []) := by
  refine ⟨rfl, ?_, ?_, ?_⟩
  · simp [aggregateSample, validValues_map_some]
  · intro n hn
    simp only [aggregateOccupancy, List.headD_cons, uniqueCounts, List.mem_map] at hn
    obtain ⟨v, hv, rfl⟩ := hn
    have hvmem : v ∈ maskedValues disc mask := by
      have hd : v ∈ (maskedValues disc mask).dedup :=
        (List.perm_insertionSort (· ≤ ·) _).mem_iff.mp hv
      exact List.mem_dedup.mp hd
    exact List.count_pos_iff.mpr hvmem
  · intro v hv
    simp only [aggregateOccupancy, List.headD_cons, uniqueCounts]
    refine List.mem_map.mpr ⟨v, ?_, rfl⟩
    rw [sortedDistinct]
    exact (List.perm_insertionSort (· ≤ ·) _).mem_iff.mpr (List.mem_dedup.mpr hv)

/-- C6 witness: masked discretized values [1,1,3]: both occupancy counts are
positive and the count of the occurring level 1 appears in the row. -/
theorem claim6_amended_aggregate_witness :
    (aggregateSample [(5 : ℚ), 6, 7] [true, true, true] =
      [(maskedValues [(5 : ℚ), 6, 7] [true, true, true]).map some] ∧
     validValues ((aggregateSample [(5 : ℚ), 6, 7] [true, true, true]).headD []) =
      maskedValues [(5 : ℚ), 6, 7] [true, true, true] ∧
     (∀ n ∈ (aggregateOccupancy [(1 : ℚ), 1, 3] [true, true, true]).headD [], 0 < n) ∧
     (∀ v ∈ maskedValues [(1 : ℚ), 1, 3] [true, true, true],
       (maskedValues [(1 : ℚ), 1, 3] [true, true, true]).count v ∈
         (aggregateOccupancy [(1 : ℚ), 1, 3] [true, true, true]).headD [])) :=
  ⟨(claim6_amended_aggregate [5, 6, 7] [1, 1, 3] [true, true, true]).1,
   (claim6_amended_aggregate [5, 6, 7] [1, 1, 3] [true, true, true]).2.1,
   (claim6_amended_aggregate [5, 6, 7] [1, 1, 3] [true, true, true]).2.2.1,
   (claim6_amended_aggregate [5, 6, 7] [1, 1, 3] [true, true, true]).2.2.2⟩

/-- C6 counterexample: for gray levels [1,2,3] and masked discretized values
[1,1,3], `np.unique` produces the occupancy row [2,1] (one entry per occurring
level), not the per-level row [2,0,1] the claim describes: level 2, which has
zero occurrences, gets no entry. -/
theorem claim6_occupancy_counterexample :
    aggregateOccupancy [1, 1, 3] [true, true, true] = [[2, 1]] ∧
    occupancyPerLevelSpec [1, 2, 3] [1, 1, 3] [true, true, true] = [[2, 0, 1]] ∧
    aggregateOccupancy [1, 1, 3] [true, true, true] ≠
      occupancyPerLevelSpec [1, 2, 3] [1, 1, 3] [true, true, true] := by
  have hmv : maskedValues [1, 1, 3] [true, true, true] = [1, 1, 3] := by
    norm_num [maskedValues, List.zip, List.filterMap_cons]
  have h1 : aggregateOccupancy [1, 1, 3] [true, true, true] = [[2, 1]] := by
    rw [aggregateOccupancy, hmv]
    norm_num [uniqueCounts, sortedDistinct, List.dedup_cons_of_mem,
      List.dedup_cons_of_not_mem, List.insertionSort, List.orderedInsert,
      List.count_cons, List.count_nil]
  have h2 : occupancyPerLevelSpec [1, 2, 3] [1, 1, 3] [true, true, true] = [[2, 0, 1]] := by
    rw [occupancyPerLevelSpec, hmv]
    norm_num [List.count_cons, List.count_nil]
  refine ⟨h1, h2, ?_⟩
  rw [h1, h2]
  decide

/-! ### Claim C7: robust MAD versus MAD -/

/-- The counterexample row for C7: [-1, 0, 0, 10, 10]. -/
def tailRow : Row := [some (-1), some 0, some 0, some 10, some 10]

theorem sorted_tailRow : sortedValid tailRow = [-1, 0, 0, 10, 10] := by
  norm_num [sortedValid, tailRow, List.insertionSort, List.orderedInsert]

theorem p10_tailRow : nanpercentile tailRow 10 = some (-3/5) := by
  simp only [nanpercentile, sorted_tailRow]
  norm_num

theorem p90_tailRow : nanpercentile tailRow 90 = some 10 := by
  simp only [nanpercentile, sorted_tailRow]
  norm_num [show Int.toNat 3 = 3 from rfl, List.getElem_cons_succ, List.getElem_cons_zero,
    List.getD_cons_succ, List.getD_cons_zero]

theorem robustFilter_tailRow :
    robustFilterRow tailRow = [none, some 0, some 0, some 10, some 10] := by
  simp only [robustFilterRow, p10_tailRow, p90_tailRow]
  simp only [tailRow]
  norm_num [ltNaN, gtNaN]

/-- C7 counterexample: the row [-1, 0, 0, 10, 10] satisfies the claim's
hypotheses (the closed percentile band [-3/5, 10] excludes the tail value -1,
and the valid entries are not all equal), yet its Robust Mean Absolute
Deviation 5 exceeds its Mean Absolute Deviation 124/25 = 4.96. -/
theorem claim7_counterexample :
    nanpercentile tailRow 10 = some (-3/5) ∧
    nanpercentile tailRow 90 = some 10 ∧
    (∃ x ∈ validValues tailRow, x < -3/5 ∨ 10 < x) ∧
    (∃ x ∈ validValues tailRow, ∃ y ∈ validValues tailRow, x ≠ y) ∧
    getIntensityRobustMeanAbsoluteDeviation [tailRow] = [some 5] ∧
    getIntensityMeanAbsoluteDeviation [tailRow] = [some (124/25)] ∧
    ¬ ((5 : ℚ) ≤ 124/25) := by
  refine ⟨p10_tailRow, p90_tailRow, ?_, ?_, ?_, ?_, by norm_num⟩
  · exact ⟨-1, by norm_num [tailRow], by norm_num⟩
  · exact ⟨-1, by norm_num [tailRow], 0, by norm_num [tailRow], by norm_num⟩
  · simp only [getIntensityRobustMeanAbsoluteDeviation, List.map_cons, List.map_nil,
      robustMadRow, robustFilter_tailRow]
    norm_num [madRow, nanmean, nansum, nvalid]
  · simp only [getIntensityMeanAbsoluteDeviation, List.map_cons, List.map_nil, tailRow]
    norm_num [madRow, nanmean, nansum, nvalid, abs_of_nonneg, abs_of_nonpos]

/-- C7 (amended): the inequality rMAD ≤ MAD is not implied by the claim's
hypotheses alone; it does hold whenever the band-filtered retained subset is
flat (all retained entries equal): then rMAD = 0 and MAD ≥ 0. -/
theorem claim7_amended_robust_mad (r : Row) (p10 p90 c : ℚ)
    (h10 : nanpercentile r 10 = some p10) (h90 : nanpercentile r 90 = some p90)
    (hne : ((validValues r).filter fun x => decide (p10 ≤ x) && decide (x ≤ p90)) ≠ [])
    (hflat : ∀ x ∈ (validValues r).filter fun x => decide (p10 ≤ x) && decide (x ≤ p90),
      x = c) :
    getIntensityRobustMeanAbsoluteDeviation [r] = [some 0] ∧
    ∃ m, getIntensityMeanAbsoluteDeviation [r] = [some m] ∧ (0 : ℚ) ≤ m := by
  have hvv := validValues_robustFilterRow r h10 h90
  have h0 : ¬ nvalid r = 0 := by
    intro h
    rw [validValues_eq_nil h] at hne
    exact hne rfl
  have hflt : nvalid (robustFilterRow r) ≠ 0 := by
    unfold nvalid
    rw [hvv]
    intro h
    exact hne (List.length_eq_zero.mp h)
  constructor
  · have hallflt : ∀ x ∈ validValues (robustFilterRow r), x = c := by
      rw [hvv]
      exact hflat
    simp [getIntensityRobustMeanAbsoluteDeviation, robustMadRow,
      madRow_of_const hflt hallflt]
  · rw [getIntensityMeanAbsoluteDeviation]
    rw [List.map_cons, List.map_nil, madRow_eq h0]
    refine ⟨_, rfl, ?_⟩
    apply div_nonneg
    · apply List.sum_nonneg
      intro x hx
      obtain ⟨y, _, rfl⟩ := List.mem_map.mp hx
      exact abs_nonneg _
    · positivity

/-- C7 amended witness: the row [0, 5, 5, 5, 10], whose closed percentile band
[2, 8] retains exactly the flat subset [5, 5, 5]. -/
theorem claim7_amended_robust_mad_witness :
    getIntensityRobustMeanAbsoluteDeviation [[some (0:ℚ), some 5, some 5, some 5, some 10]] =
      [some 0] ∧
    ∃ m, getIntensityMeanAbsoluteDeviation [[some (0:ℚ), some 5, some 5, some 5, some 10]] =
      [some m] ∧ (0 : ℚ) ≤ m :=
  claim7_amended_robust_mad [some 0, some 5, some 5, some 5, some 10] 2 8 5
    (by norm_num [nanpercentile, sortedValid, List.insertionSort, List.orderedInsert])
    (by
      norm_num [nanpercentile, sortedValid, List.insertionSort, List.orderedInsert,
        show Int.toNat 3 = 3 from rfl, List.getD_cons_succ, List.getD_cons_zero,
        List.getElem_cons_succ, List.getElem_cons_zero])
    (by
      have h : ((validValues [some (0:ℚ), some 5, some 5, some 5, some 10]).filter
          fun x => decide ((2:ℚ) ≤ x) && decide (x ≤ (8:ℚ))) = [5, 5, 5] := by
        norm_num [List.filter_cons]
      rw [h]
      exact List.cons_ne_nil _ _)
    (by norm_num [List.filter_cons])

/-! ### Permutation congruence: every row statistic depends only on the
multiset of valid entries of the row -/

theorem nvalid_congr {r1 r2 : Row} (h : (validValues r1).Perm (validValues r2)) :
    nvalid r1 = nvalid r2 := h.length_eq

theorem nansum_congr {r1 r2 : Row} (h : (validValues r1).Perm (validValues r2)) :
    nansum r1 = nansum r2 := h.sum_eq

theorem nanmean_congr {r1 r2 : Row} (h : (validValues r1).Perm (validValues r2)) :
    nanmean r1 = nanmean r2 := by
  simp only [nanmean, nvalid_congr h, nansum_congr h]

theorem sortedValid_congr {r1 r2 : Row} (h : (validValues r1).Perm (validValues r2)) :
    sortedValid r1 = sortedValid r2 :=
  List.eq_of_perm_of_sorted
    ((List.perm_insertionSort _ _).trans (h.trans (List.perm_insertionSort _ _).symm))
    (List.sorted_insertionSort _ _) (List.sorted_insertionSort _ _)

theorem nanmin_congr {r1 r2 : Row} (h : (validValues r1).Perm (validValues r2)) :
    nanmin r1 = nanmin r2 := by
  simp only [nanmin, sortedValid_congr h]

theorem nanmax_congr {r1 r2 : Row} (h : (validValues r1).Perm (validValues r2)) :
    nanmax r1 = nanmax r2 := by
  simp only [nanmax, sortedValid_congr h]

theorem nanpercentile_congr (p : ℚ) {r1 r2 : Row}
    (h : (validValues r1).Perm (validValues r2)) :
    nanpercentile r1 p = nanpercentile r2 p := by
  simp only [nanpercentile, sortedValid_congr h]

theorem nanmedian_congr {r1 r2 : Row} (h : (validValues r1).Perm (validValues r2)) :
    nanmedian r1 = nanmedian r2 := by
  simp only [nanmedian, sortedValid_congr h]

theorem mapValid_perm (f : ℚ → ℚ) {r1 r2 : Row}
    (h : (validValues r1).Perm (validValues r2)) :
    (validValues (r1.map (Option.map f))).Perm (validValues (r2.map (Option.map f))) := by
  rw [validValues_map_map, validValues_map_map]
  exact h.map f

theorem moment_congr (k : ℕ) {r1 r2 : Row} (h : (validValues r1).Perm (validValues r2)) :
    moment r1 k = moment r2 k := by
  by_cases hk : k = 1
  · simp [moment, hk]
  · simp only [moment, if_neg hk, nanmean_congr h]
    cases nanmean r2 with
    | none => rfl
    | some mn =>
        simp only [Option.some_bind]
        exact nanmean_congr (mapValid_perm _ h)

theorem stdRow_congr {r1 r2 : Row} (h : (validValues r1).Perm (validValues r2)) :
    stdRow r1 = stdRow r2 := by
  simp only [stdRow, moment_congr 2 h]

theorem varianceRow_congr {r1 r2 : Row} (h : (validValues r1).Perm (validValues r2)) :
    varianceRow r1 = varianceRow r2 := by
  simp only [varianceRow, stdRow_congr h]

theorem skewnessRow_congr {r1 r2 : Row} (h : (validValues r1).Perm (validValues r2)) :
    skewnessRow r1 = skewnessRow r2 := by
  simp only [skewnessRow, moment_congr 2 h, moment_congr 3 h]

theorem kurtosisRow_congr {r1 r2 : Row} (h : (validValues r1).Perm (validValues r2)) :
    kurtosisRow r1 = kurtosisRow r2 := by
  simp only [kurtosisRow, moment_congr 2 h, moment_congr 4 h]

theorem madRow_congr {r1 r2 : Row} (h : (validValues r1).Perm (validValues r2)) :
    madRow r1 = madRow r2 := by
  simp only [madRow, nanmean_congr h]
  cases nanmean r2 with
  | none => rfl
  | some u =>
      simp only [Option.some_bind]
      exact nanmean_congr (mapValid_perm _ h)

theorem medianAbsDevRow_congr {r1 r2 : Row} (h : (validValues r1).Perm (validValues r2)) :
    medianAbsDevRow r1 = medianAbsDevRow r2 := by
  simp only [medianAbsDevRow, nanmedian_congr h]
  cases nanmedian r2 with
  | none => rfl
  | some md =>
      simp only [Option.some_bind]
      exact nanmedian_congr (mapValid_perm _ h)

theorem robustFilterRow_valid_perm {r1 r2 : Row}
    (h : (validValues r1).Perm (validValues r2)) :
    (validValues (robustFilterRow r1)).Perm (validValues (robustFilterRow r2)) := by
  unfold robustFilterRow
  rw [validValues_map_bind, validValues_map_bind, nanpercentile_congr 10 h,
    nanpercentile_congr 90 h]
  exact h.filterMap _

theorem robustMadRow_congr {r1 r2 : Row} (h : (validValues r1).Perm (validValues r2)) :
    robustMadRow r1 = robustMadRow r2 :=
  madRow_congr (robustFilterRow_valid_perm h)

theorem covRow_congr {r1 r2 : Row} (h : (validValues r1).Perm (validValues r2)) :
    covRow r1 = covRow r2 := by
  simp only [covRow, nanmean_congr h, stdRow_congr h]

theorem qcdRow_congr {r1 r2 : Row} (h : (validValues r1).Perm (validValues r2)) :
    qcdRow r1 = qcdRow r2 := by
  simp only [qcdRow, nanpercentile_congr 75 h, nanpercentile_congr 25 h]

theorem iqrRow_congr {r1 r2 : Row} (h : (validValues r1).Perm (validValues r2)) :
    iqrRow r1 = iqrRow r2 := by
  simp only [iqrRow, nanpercentile_congr 75 h, nanpercentile_congr 25 h]

theorem rangeRow_congr {r1 r2 : Row} (h : (validValues r1).Perm (validValues r2)) :
    rangeRow r1 = rangeRow r2 := by
  simp only [rangeRow, nanmin_congr h, nanmax_congr h]

theorem energyRow_congr (shift : ℚ) {r1 r2 : Row}
    (h : (validValues r1).Perm (validValues r2)) :
    energyRow r1 shift = energyRow r2 shift := by
  unfold energyRow nansum
  rw [validValues_map_map, validValues_map_map]
  exact (h.map _).sum_eq

theorem rmsSqRow_congr (shift : ℚ) {r1 r2 : Row}
    (h : (validValues r1).Perm (validValues r2)) :
    rmsSqRow r1 shift = rmsSqRow r2 shift := by
  unfold rmsSqRow
  rw [nvalid_congr h]
  have hsum : nansum (r1.map (Option.map fun x => (x + shift) ^ 2)) =
      nansum (r2.map (Option.map fun x => (x + shift) ^ 2)) := by
    unfold nansum
    rw [validValues_map_map, validValues_map_map]
    exact (h.map _).sum_eq
  rw [hsum]

theorem rmsRow_congr (shift : ℚ) {r1 r2 : Row}
    (h : (validValues r1).Perm (validValues r2)) :
    rmsRow r1 shift = rmsRow r2 shift := by
  simp only [rmsRow, rmsSqRow_congr shift h]

/-! ### Claim C9: row locality of every statistic -/

theorem getD_map_of_lt {α β : Type} (f : α → β) (M : List α) (i : ℕ)
    (h : i < M.length) (d : β) :
    (M.map f).getD i d = f (M.get ⟨i, h⟩) := by
  rw [List.getD_eq_getElem _ _ (by simpa using h)]
  simp

theorem sum_of_forall_eq_nat {l : List ℕ} {n : ℕ} (h : ∀ x ∈ l, x = n) :
    l.sum = l.length * n := by
  induction l with
  | nil => simp
  | cons a t ih =>
      have ha : a = n := h a (by simp)
      have ht : t.sum = t.length * n := ih fun x hx => h x (by simp [hx])
      simp [ha, ht]
      ring

theorem matrixSize_eq {M : List Row} {n : ℕ} (hc : ∀ r ∈ M, r.length = n) :
    matrixSize M = M.length * n := by
  unfold matrixSize
  rw [sum_of_forall_eq_nat, List.length_map]
  intro x hx
  obtain ⟨r, hr, rfl⟩ := List.mem_map.mp hx
  exact hc r hr

/-- C9: for every statistic, the result at row index `i` depends only on the
contents of row `i`: two sample matrices with the same number `n` of columns
that agree on row `i` produce identical values at index `i` (for RMS, either
both matrices are empty of entries and both return the scalar 0, or both
return per-row vectors agreeing at index `i`).  In particular a fully invalid
row elsewhere in the batch cannot alter row `i`'s results. -/
theorem claim9_row_locality (M1 M2 : List Row) (n i : ℕ)
    (hc1 : ∀ r ∈ M1, r.length = n) (hc2 : ∀ r ∈ M2, r.length = n)
    (h1 : i < M1.length) (h2 : i < M2.length)
    (hrow : M1.get ⟨i, h1⟩ = M2.get ⟨i, h2⟩) (shift : ℚ) :
    (getMeanIntensity M1).getD i none = (getMeanIntensity M2).getD i none ∧
    (getVarianceIntensity M1).getD i none = (getVarianceIntensity M2).getD i none ∧
    (getIntensitySkewness M1).getD i none = (getIntensitySkewness M2).getD i none ∧
    (getIntensityKurtosis M1).getD i none = (getIntensityKurtosis M2).getD i none ∧
    (getMedianIntensity M1).getD i none = (getMedianIntensity M2).getD i none ∧
    (getMinimumIntensity M1).getD i none = (getMinimumIntensity M2).getD i none ∧
    (get10IntensityPercentile M1).getD i none = (get10IntensityPercentile M2).getD i none ∧
    (get90IntensityPercentile M1).getD i none = (get90IntensityPercentile M2).getD i none ∧
    (getMaximumIntensity M1).getD i none = (getMaximumIntensity M2).getD i none ∧
    (getIntensityInterquartileRange M1).getD i none =
      (getIntensityInterquartileRange M2).getD i none ∧
    (getIntensityRange M1).getD i none = (getIntensityRange M2).getD i none ∧
    (getIntensityMeanAbsoluteDeviation M1).getD i none =
      (getIntensityMeanAbsoluteDeviation M2).getD i none ∧
    (getIntensityRobustMeanAbsoluteDeviation M1).getD i none =
      (getIntensityRobustMeanAbsoluteDeviation M2).getD i none ∧
    (getIntensityMedianAbsoluteDeviation M1).getD i none =
      (getIntensityMedianAbsoluteDeviation M2).getD i none ∧
    (getIntensityCoefficientOfVariation M1).getD i 0 =
      (getIntensityCoefficientOfVariation M2).getD i 0 ∧
    (getIntensityQuartileCoefficientOfDispersion M1).getD i 0 =
      (getIntensityQuartileCoefficientOfDispersion M2).getD i 0 ∧
    (getStandardDeviationIntensity M1).getD i none =
      (getStandardDeviationIntensity M2).getD i none ∧
    (getIntensityEnergy M1 shift).getD i 0 = (getIntensityEnergy M2 shift).getD i 0 ∧
    ((getRootMeanSquareIntensity M1 shift = Sum.inl 0 ∧
      getRootMeanSquareIntensity M2 shift = Sum.inl 0) ∨
     (∃ l1 l2, getRootMeanSquareIntensity M1 shift = Sum.inr l1 ∧
       getRootMeanSquareIntensity M2 shift = Sum.inr l2 ∧
       l1.getD i none = l2.getD i none)) := by
  refine ⟨?_, ?_, ?_, ?_, ?_, ?_, ?_, ?_, ?_, ?_, ?_, ?_, ?_, ?_, ?_, ?_, ?_, ?_, ?_⟩
  · simp only [getMeanIntensity]
    rw [getD_map_of_lt _ _ _ h1, getD_map_of_lt _ _ _ h2, hrow]
  · simp only [getVarianceIntensity]
    rw [getD_map_of_lt _ _ _ h1, getD_map_of_lt _ _ _ h2, hrow]
  · simp only [getIntensitySkewness]
    rw [getD_map_of_lt _ _ _ h1, getD_map_of_lt _ _ _ h2, hrow]
  · simp only [getIntensityKurtosis]
    rw [getD_map_of_lt _ _ _ h1, getD_map_of_lt _ _ _ h2, hrow]
  · simp only [getMedianIntensity]
    rw [getD_map_of_lt _ _ _ h1, getD_map_of_lt _ _ _ h2, hrow]
  · simp only [getMinimumIntensity]
    rw [getD_map_of_lt _ _ _ h1, getD_map_of_lt _ _ _ h2, hrow]
  · simp only [get10IntensityPercentile]
    rw [getD_map_of_lt _ _ _ h1, getD_map_of_lt _ _ _ h2, hrow]
  · simp only [get90IntensityPercentile]
    rw [getD_map_of_lt _ _ _ h1, getD_map_of_lt _ _ _ h2, hrow]
  · simp only [getMaximumIntensity]
    rw [getD_map_of_lt _ _ _ h1, getD_map_of_lt _ _ _ h2, hrow]
  · simp only [getIntensityInterquartileRange]
    rw [getD_map_of_lt _ _ _ h1, getD_map_of_lt _ _ _ h2, hrow]
  · simp only [getIntensityRange]
    rw [getD_map_of_lt _ _ _ h1, getD_map_of_lt _ _ _ h2, hrow]
  · simp only [getIntensityMeanAbsoluteDeviation]
    rw [getD_map_of_lt _ _ _ h1, getD_map_of_lt _ _ _ h2, hrow]
  · simp only [getIntensityRobustMeanAbsoluteDeviation]
    rw [getD_map_of_lt _ _ _ h1, getD_map_of_lt _ _ _ h2, hrow]
  · simp only [getIntensityMedianAbsoluteDeviation]
    rw [getD_map_of_lt _ _ _ h1, getD_map_of_lt _ _ _ h2, hrow]
  · simp only [getIntensityCoefficientOfVariation]
    rw [getD_map_of_lt _ _ _ h1, getD_map_of_lt _ _ _ h2, hrow]
  · simp only [getIntensityQuartileCoefficientOfDispersion]
    rw [getD_map_of_lt _ _ _ h1, getD_map_of_lt _ _ _ h2, hrow]
  · simp only [getStandardDeviationIntensity]
    rw [getD_map_of_lt _ _ _ h1, getD_map_of_lt _ _ _ h2, hrow]
  · simp only [getIntensityEnergy]
    rw [getD_map_of_lt _ _ _ h1, getD_map_of_lt _ _ _ h2, hrow]
  · by_cases hn : n = 0
    · left
      have hz1 : matrixSize M1 = 0 := by rw [matrixSize_eq hc1, hn, Nat.mul_zero]
      have hz2 : matrixSize M2 = 0 := by rw [matrixSize_eq hc2, hn, Nat.mul_zero]
      constructor
      · rw [getRootMeanSquareIntensity, if_pos hz1]
      · rw [getRootMeanSquareIntensity, if_pos hz2]
    · right
      have hz1 : ¬ matrixSize M1 = 0 := by
        rw [matrixSize_eq hc1]
        exact Nat.mul_ne_zero (by omega) hn
      have hz2 : ¬ matrixSize M2 = 0 := by
        rw [matrixSize_eq hc2]
        exact Nat.mul_ne_zero (by omega) hn
      refine ⟨M1.map (rmsRow · shift), M2.map (rmsRow · shift), ?_, ?_, ?_⟩
      · rw [getRootMeanSquareIntensity, if_neg hz1]
      · rw [getRootMeanSquareIntensity, if_neg hz2]
      · rw [getD_map_of_lt _ _ _ h1, getD_map_of_lt _ _ _ h2, hrow]

/-- C9 witness: the single-row batch `[[1]]` versus the batch `[[1], [NaN]]`
that appends a fully invalid row: every statistic agrees at row index 0. -/
theorem claim9_row_locality_witness :
    (getMeanIntensity [[some (1:ℚ)]]).getD 0 none =
      (getMeanIntensity [[some (1:ℚ)], [none]]).getD 0 none ∧
    (getVarianceIntensity [[some (1:ℚ)]]).getD 0 none =
      (getVarianceIntensity [[some (1:ℚ)], [none]]).getD 0 none ∧
    (getIntensitySkewness [[some (1:ℚ)]]).getD 0 none =
      (getIntensitySkewness [[some (1:ℚ)], [none]]).getD 0 none ∧
    (getIntensityKurtosis [[some (1:ℚ)]]).getD 0 none =
      (getIntensityKurtosis [[some (1:ℚ)], [none]]).getD 0 none ∧
    (getMedianIntensity [[some (1:ℚ)]]).getD 0 none =
      (getMedianIntensity [[some (1:ℚ)], [none]]).getD 0 none ∧
    (getMinimumIntensity [[some (1:ℚ)]]).getD 0 none =
      (getMinimumIntensity [[some (1:ℚ)], [none]]).getD 0 none ∧
    (get10IntensityPercentile [[some (1:ℚ)]]).getD 0 none =
      (get10IntensityPercentile [[some (1:ℚ)], [none]]).getD 0 none ∧
    (get90IntensityPercentile [[some (1:ℚ)]]).getD 0 none =
      (get90IntensityPercentile [[some (1:ℚ)], [none]]).getD 0 none ∧
    (getMaximumIntensity [[some (1:ℚ)]]).getD 0 none =
      (getMaximumIntensity [[some (1:ℚ)], [none]]).getD 0 none ∧
    (getIntensityInterquartileRange [[some (1:ℚ)]]).getD 0 none =
      (getIntensityInterquartileRange [[some (1:ℚ)], [none]]).getD 0 none ∧
    (getIntensityRange [[some (1:ℚ)]]).getD 0 none =
      (getIntensityRange [[some (1:ℚ)], [none]]).getD 0 none ∧
    (getIntensityMeanAbsoluteDeviation [[some (1:ℚ)]]).getD 0 none =
      (getIntensityMeanAbsoluteDeviation [[some (1:ℚ)], [none]]).getD 0 none ∧
    (getIntensityRobustMeanAbsoluteDeviation [[some (1:ℚ)]]).getD 0 none =
      (getIntensityRobustMeanAbsoluteDeviation [[some (1:ℚ)], [none]]).getD 0 none ∧
    (getIntensityMedianAbsoluteDeviation [[some (1:ℚ)]]).getD 0 none =
      (getIntensityMedianAbsoluteDeviation [[some (1:ℚ)], [none]]).getD 0 none ∧
    (getIntensityCoefficientOfVariation [[some (1:ℚ)]]).getD 0 0 =
      (getIntensityCoefficientOfVariation [[some (1:ℚ)], [none]]).getD 0 0 ∧
    (getIntensityQuartileCoefficientOfDispersion [[some (1:ℚ)]]).getD 0 0 =
      (getIntensityQuartileCoefficientOfDispersion [[some (1:ℚ)], [none]]).getD 0 0 ∧
    (getStandardDeviationIntensity [[some (1:ℚ)]]).getD 0 none =
      (getStandardDeviationIntensity [[some (1:ℚ)], [none]]).getD 0 none ∧
    (getIntensityEnergy [[some (1:ℚ)]] 0).getD 0 0 =
      (getIntensityEnergy [[some (1:ℚ)], [none]] 0).getD 0 0 ∧
    ((getRootMeanSquareIntensity [[some (1:ℚ)]] 0 = Sum.inl 0 ∧
      getRootMeanSquareIntensity [[some (1:ℚ)], [none]] 0 = Sum.inl 0) ∨
     (∃ l1 l2, getRootMeanSquareIntensity [[some (1:ℚ)]] 0 = Sum.inr l1 ∧
       getRootMeanSquareIntensity [[some (1:ℚ)], [none]] 0 = Sum.inr l2 ∧
       l1.getD 0 none = l2.getD 0 none)) :=
  claim9_row_locality [[some 1]] [[some 1], [none]] 1 0
    (by simp) (by simp) (by norm_num) (by norm_num) rfl 0

/-! ### Claim C8: aggregate mode equals local mode with full-coverage offsets -/

theorem filterMap_ite_map {α : Type} (P : α → Bool) (f : α → ℚ) (l : List α) :
    (l.filterMap fun o => if P o then some (f o) else none) = (l.filter P).map f := by
  induction l with
  | nil => rfl
  | cons a t ih =>
      by_cases h : P a <;> simp [List.filterMap_cons, List.filter_cons, h, ih]

theorem matrixSize_singleton (r : Row) : matrixSize [r] = r.length := by
  simp [matrixSize]

/-- C8: with the padded image marking exactly the out-of-mask voxels invalid,
a deduplicated offset table that covers every masked voxel relative to the
(masked) evaluation voxel `v` makes local mode at `v` gather exactly the
masked voxel values (up to order, with invalid entries excluded from every
reduction), so every statistic agrees with aggregate mode over the full masked
region. -/
theorem claim8_aggregate_matches_full_local
    (img : Coord → ℚ) (pmask : Coord → Bool) (paddedImg : Coord → Val)
    (maskCoords kernelOffsets : List Coord) (v : Coord) (shift : ℚ)
    (hpad : ∀ c, paddedImg c = if pmask c then some (img c) else none)
    (hmem : ∀ c, c ∈ maskCoords ↔ pmask c = true)
    (hmnd : maskCoords.Nodup) (hond : kernelOffsets.Nodup)
    (hv : pmask v = true)
    (hcov : ∀ c, pmask c = true → c - v ∈ kernelOffsets) :
    getMeanIntensity [localRowAt paddedImg kernelOffsets v] =
      getMeanIntensity [aggregateRegionRow img maskCoords] ∧
    getVarianceIntensity [localRowAt paddedImg kernelOffsets v] =
      getVarianceIntensity [aggregateRegionRow img maskCoords] ∧
    getIntensitySkewness [localRowAt paddedImg kernelOffsets v] =
      getIntensitySkewness [aggregateRegionRow img maskCoords] ∧
    getIntensityKurtosis [localRowAt paddedImg kernelOffsets v] =
      getIntensityKurtosis [aggregateRegionRow img maskCoords] ∧
    getMedianIntensity [localRowAt paddedImg kernelOffsets v] =
      getMedianIntensity [aggregateRegionRow img maskCoords] ∧
    getMinimumIntensity [localRowAt paddedImg kernelOffsets v] =
      getMinimumIntensity [aggregateRegionRow img maskCoords] ∧
    get10IntensityPercentile [localRowAt paddedImg kernelOffsets v] =
      get10IntensityPercentile [aggregateRegionRow img maskCoords] ∧
    get90IntensityPercentile [localRowAt paddedImg kernelOffsets v] =
      get90IntensityPercentile [aggregateRegionRow img maskCoords] ∧
    getMaximumIntensity [localRowAt paddedImg kernelOffsets v] =
      getMaximumIntensity [aggregateRegionRow img maskCoords] ∧
    getIntensityInterquartileRange [localRowAt paddedImg kernelOffsets v] =
      getIntensityInterquartileRange [aggregateRegionRow img maskCoords] ∧
    getIntensityRange [localRowAt paddedImg kernelOffsets v] =
      getIntensityRange [aggregateRegionRow img maskCoords] ∧
    getIntensityMeanAbsoluteDeviation [localRowAt paddedImg kernelOffsets v] =
      getIntensityMeanAbsoluteDeviation [aggregateRegionRow img maskCoords] ∧
    getIntensityRobustMeanAbsoluteDeviation [localRowAt paddedImg kernelOffsets v] =
      getIntensityRobustMeanAbsoluteDeviation [aggregateRegionRow img maskCoords] ∧
    getIntensityMedianAbsoluteDeviation [localRowAt paddedImg kernelOffsets v] =
      getIntensityMedianAbsoluteDeviation [aggregateRegionRow img maskCoords] ∧
    getIntensityCoefficientOfVariation [localRowAt paddedImg kernelOffsets v] =
      getIntensityCoefficientOfVariation [aggregateRegionRow img maskCoords] ∧
    getIntensityQuartileCoefficientOfDispersion [localRowAt paddedImg kernelOffsets v] =
      getIntensityQuartileCoefficientOfDispersion [aggregateRegionRow img maskCoords] ∧
    getStandardDeviationIntensity [localRowAt paddedImg kernelOffsets v] =
      getStandardDeviationIntensity [aggregateRegionRow img maskCoords] ∧
    getIntensityEnergy [localRowAt paddedImg kernelOffsets v] shift =
      getIntensityEnergy [aggregateRegionRow img maskCoords] shift ∧
    getRootMeanSquareIntensity [localRowAt paddedImg kernelOffsets v] shift =
      getRootMeanSquareIntensity [aggregateRegionRow img maskCoords] shift := by
  have hl : validValues (localRowAt paddedImg kernelOffsets v) =
      (kernelOffsets.filter fun o => pmask (v + o)).map fun o => img (v + o) := by
    unfold localRowAt validValues
    rw [List.filterMap_map]
    have hfun : (id ∘ fun o => paddedImg (v + o)) =
        fun o => if pmask (v + o) then some (img (v + o)) else none := by
      funext o
      simp [hpad]
    rw [hfun, filterMap_ite_map]
  have ha : validValues (aggregateRegionRow img maskCoords) = maskCoords.map img := by
    unfold aggregateRegionRow validValues
    rw [List.filterMap_map]
    rw [show (id ∘ fun c => (some (img c) : Val)) = some ∘ img from rfl,
      List.filterMap_eq_map]
  have hinj : Function.Injective fun o : Coord => v + o := add_right_injective v
  have hcperm : ((kernelOffsets.filter fun o => pmask (v + o)).map fun o => v + o).Perm
      maskCoords := by
    rw [List.perm_ext_iff_of_nodup ((hond.filter _).map hinj) hmnd]
    intro c
    constructor
    · intro hc
      obtain ⟨o, ho, rfl⟩ := List.mem_map.mp hc
      exact (hmem _).mpr (List.mem_filter.mp ho).2
    · intro hc
      have hp : pmask c = true := (hmem c).mp hc
      have hvc : v + (c - v) = c := by abel
      refine List.mem_map.mpr ⟨c - v, List.mem_filter.mpr ⟨hcov c hp, ?_⟩, hvc⟩
      rw [hvc]
      exact hp
  have hperm : (validValues (localRowAt paddedImg kernelOffsets v)).Perm
      (validValues (aggregateRegionRow img maskCoords)) := by
    rw [hl, ha]
    have h2 := hcperm.map img
    rw [List.map_map] at h2
    exact h2
  have hvmem : v ∈ maskCoords := (hmem v).mpr hv
  have hzero : (0 : Coord) ∈ kernelOffsets := by
    have h := hcov v hv
    rwa [sub_self] at h
  have hsz1 : ¬ matrixSize [localRowAt paddedImg kernelOffsets v] = 0 := by
    rw [matrixSize_singleton]
    simp only [localRowAt, List.length_map]
    intro hlen
    rw [List.length_eq_zero] at hlen
    rw [hlen] at hzero
    exact (List.not_mem_nil _) hzero
  have hsz2 : ¬ matrixSize [aggregateRegionRow img maskCoords] = 0 := by
    rw [matrixSize_singleton]
    simp only [aggregateRegionRow, List.length_map]
    intro hlen
    rw [List.length_eq_zero] at hlen
    rw [hlen] at hvmem
    exact (List.not_mem_nil _) hvmem
  refine ⟨?_, ?_, ?_, ?_, ?_, ?_, ?_, ?_, ?_, ?_, ?_, ?_, ?_, ?_, ?_, ?_, ?_, ?_, ?_⟩
  · simp only [getMeanIntensity, List.map_cons, List.map_nil, nanmean_congr hperm]
  · simp only [getVarianceIntensity, List.map_cons, List.map_nil, varianceRow_congr hperm]
  · simp only [getIntensitySkewness, List.map_cons, List.map_nil, skewnessRow_congr hperm]
  · simp only [getIntensityKurtosis, List.map_cons, List.map_nil, kurtosisRow_congr hperm]
  · simp only [getMedianIntensity, List.map_cons, List.map_nil, nanmedian_congr hperm]
  · simp only [getMinimumIntensity, List.map_cons, List.map_nil, nanmin_congr hperm]
  · simp only [get10IntensityPercentile, List.map_cons, List.map_nil,
      nanpercentile_congr 10 hperm]
  · simp only [get90IntensityPercentile, List.map_cons, List.map_nil,
      nanpercentile_congr 90 hperm]
  · simp only [getMaximumIntensity, List.map_cons, List.map_nil, nanmax_congr hperm]
  · simp only [getIntensityInterquartileRange, List.map_cons, List.map_nil,
      iqrRow_congr hperm]
  · simp only [getIntensityRange, List.map_cons, List.map_nil, rangeRow_congr hperm]
  · simp only [getIntensityMeanAbsoluteDeviation, List.map_cons, List.map_nil,
      madRow_congr hperm]
  · simp only [getIntensityRobustMeanAbsoluteDeviation, List.map_cons, List.map_nil,
      robustMadRow_congr hperm]
  · simp only [getIntensityMedianAbsoluteDeviation, List.map_cons, List.map_nil,
      medianAbsDevRow_congr hperm]
  · simp only [getIntensityCoefficientOfVariation, List.map_cons, List.map_nil,
      covRow_congr hperm]
  · simp only [getIntensityQuartileCoefficientOfDispersion, List.map_cons, List.map_nil,
      qcdRow_congr hperm]
  · simp only [getStandardDeviationIntensity, List.map_cons, List.map_nil,
      stdRow_congr hperm]
  · simp only [getIntensityEnergy, List.map_cons, List.map_nil,
      energyRow_congr shift hperm]
  · simp only [getRootMeanSquareIntensity]
    rw [if_neg hsz1, if_neg hsz2]
    simp only [List.map_cons, List.map_nil, rmsRow_congr shift hperm]

/-- Concrete two-voxel region for the C8 witness. -/
def wCoordA : Coord := ((0 : ℤ), (0 : ℤ), (0 : ℤ))

def wCoordB : Coord := ((1 : ℤ), (0 : ℤ), (0 : ℤ))

def wMask : Coord → Bool := fun c => decide (c = wCoordA) || decide (c = wCoordB)

def wImg : Coord → ℚ := fun c => if c = wCoordA then 3 else 5

def wPad : Coord → Val := fun c => if wMask c then some (wImg c) else none

/-- C8 witness: a two-voxel mask with the offset table covering both voxels
from the masked corner voxel. -/
theorem claim8_aggregate_matches_full_local_witness :
    getMeanIntensity [localRowAt wPad [wCoordA, wCoordB] wCoordA] =
      getMeanIntensity [aggregateRegionRow wImg [wCoordA, wCoordB]] ∧
    getVarianceIntensity [localRowAt wPad [wCoordA, wCoordB] wCoordA] =
      getVarianceIntensity [aggregateRegionRow wImg [wCoordA, wCoordB]] ∧
    getIntensitySkewness [localRowAt wPad [wCoordA, wCoordB] wCoordA] =
      getIntensitySkewness [aggregateRegionRow wImg [wCoordA, wCoordB]] ∧
    getIntensityKurtosis [localRowAt wPad [wCoordA, wCoordB] wCoordA] =
      getIntensityKurtosis [aggregateRegionRow wImg [wCoordA, wCoordB]] ∧
    getMedianIntensity [localRowAt wPad [wCoordA, wCoordB] wCoordA] =
      getMedianIntensity [aggregateRegionRow wImg [wCoordA, wCoordB]] ∧
    getMinimumIntensity [localRowAt wPad [wCoordA, wCoordB] wCoordA] =
      getMinimumIntensity [aggregateRegionRow wImg [wCoordA, wCoordB]] ∧
    get10IntensityPercentile [localRowAt wPad [wCoordA, wCoordB] wCoordA] =
      get10IntensityPercentile [aggregateRegionRow wImg [wCoordA, wCoordB]] ∧
    get90IntensityPercentile [localRowAt wPad [wCoordA, wCoordB] wCoordA] =
      get90IntensityPercentile [aggregateRegionRow wImg [wCoordA, wCoordB]] ∧
    getMaximumIntensity [localRowAt wPad [wCoordA, wCoordB] wCoordA] =
      getMaximumIntensity [aggregateRegionRow wImg [wCoordA, wCoordB]] ∧
    getIntensityInterquartileRange [localRowAt wPad [wCoordA, wCoordB] wCoordA] =
      getIntensityInterquartileRange [aggregateRegionRow wImg [wCoordA, wCoordB]] ∧
    getIntensityRange [localRowAt wPad [wCoordA, wCoordB] wCoordA] =
      getIntensityRange [aggregateRegionRow wImg [wCoordA, wCoordB]] ∧
    getIntensityMeanAbsoluteDeviation [localRowAt wPad [wCoordA, wCoordB] wCoordA] =
      getIntensityMeanAbsoluteDeviation [aggregateRegionRow wImg [wCoordA, wCoordB]] ∧
    getIntensityRobustMeanAbsoluteDeviation [localRowAt wPad [wCoordA, wCoordB] wCoordA] =
      getIntensityRobustMeanAbsoluteDeviation [aggregateRegionRow wImg [wCoordA, wCoordB]] ∧
    getIntensityMedianAbsoluteDeviation [localRowAt wPad [wCoordA, wCoordB] wCoordA] =
      getIntensityMedianAbsoluteDeviation [aggregateRegionRow wImg [wCoordA, wCoordB]] ∧
    getIntensityCoefficientOfVariation [localRowAt wPad [wCoordA, wCoordB] wCoordA] =
      getIntensityCoefficientOfVariation [aggregateRegionRow wImg [wCoordA, wCoordB]] ∧
    getIntensityQuartileCoefficientOfDispersion
        [localRowAt wPad [wCoordA, wCoordB] wCoordA] =
      getIntensityQuartileCoefficientOfDispersion
        [aggregateRegionRow wImg [wCoordA, wCoordB]] ∧
    getStandardDeviationIntensity [localRowAt wPad [wCoordA, wCoordB] wCoordA] =
      getStandardDeviationIntensity [aggregateRegionRow wImg [wCoordA, wCoordB]] ∧
    getIntensityEnergy [localRowAt wPad [wCoordA, wCoordB] wCoordA] 2 =
      getIntensityEnergy [aggregateRegionRow wImg [wCoordA, wCoordB]] 2 ∧
    getRootMeanSquareIntensity [localRowAt wPad [wCoordA, wCoordB] wCoordA] 2 =
      getRootMeanSquareIntensity [aggregateRegionRow wImg [wCoordA, wCoordB]] 2 :=
  claim8_aggregate_matches_full_local wImg wMask wPad [wCoordA, wCoordB]
    [wCoordA, wCoordB] wCoordA 2
    (fun _ => rfl)
    (by
      intro c
      simp [wMask, List.mem_cons])
    (by decide)
    (by decide)
    (by decide)
    (by
      intro c hp
      simp only [wMask, Bool.or_eq_true, decide_eq_true_eq] at hp
      rcases hp with rfl | rfl
      · rw [sub_self]
        exact List.mem_cons_self _ _
      · have hb : wCoordB - wCoordA = wCoordB := by decide
        rw [hb]
        exact List.mem_cons_of_mem _ (List.mem_cons_self _ _))

end IntensityStat
